import Mathlib

/-!
Verification of the oltl type library against its specification.

The development shallowly embeds the string/number/bytes/identifier value-type
pipelines of `oltl/core.py`, the text normalizer of `oltl/utils.py`, the
update-time-aware assignment hook, and the JSON-schema-to-model reconstruction
loop, and proves the specified properties about the embedded code.
-/

namespace Oltl

/-- Modelled fragment of the Unicode whitespace class: the characters matched
by Python's regex class and stripped by the validator's strip-whitespace
option, restricted to the standard Unicode whitespace code points. -/
def isPySpace (c : Char) : Bool :=
  (0x09 ≤ c.toNat && c.toNat ≤ 0x0D) || c.toNat = 0x20 ||
  (0x1C ≤ c.toNat && c.toNat ≤ 0x1F) || c.toNat = 0x85 || c.toNat = 0xA0 ||
  c.toNat = 0x1680 || (0x2000 ≤ c.toNat && c.toNat ≤ 0x200A) ||
  c.toNat = 0x2028 || c.toNat = 0x2029 || c.toNat = 0x202F ||
  c.toNat = 0x205F || c.toNat = 0x3000

/-- Modelled fragment of Python `unicodedata.normalize("NFKC", x)`, the
external collaborator called by `oltl.utils.normalize_jptext` (utils.py line
40): character-wise NFKC restricted to the characters this development
exercises (ideographic space, the fullwidth ASCII block, the compatibility
minus signs and the non-breaking hyphen); all other characters appearing in
the inputs considered here are NFKC-stable and are left unchanged. -/
def nfkcChar (c : Char) : Char :=
  if c.toNat = 0x3000 then ' '
  else if 0xFF01 ≤ c.toNat && c.toNat ≤ 0xFF5E then Char.ofNat (c.toNat - 0xFEE0)
  else if c.toNat = 0x2011 then '‐'
  else if c.toNat = 0x207B || c.toNat = 0x208B then '−'
  else c

def nfkc (s : String) : String := ⟨s.data.map nfkcChar⟩

/-- The character translation table `normalize_trans_map` of `oltl/utils.py`
(lines 9-30): dash variants to ASCII hyphen-minus, space variants (ideographic
space, zero-width space, BOM, tab) to ASCII space, curly quotes to the
straight ASCII quotes. -/
def transChar (c : Char) : Char :=
  if c = '˗' || c = '֊' || c = '‐' || c = '‑' || c = '‒' || c = '–' ||
     c = '⁃' || c = '⁻' || c = '₋' || c = '−' then '-'
  else if c.toNat = 0x3000 || c.toNat = 0x200B || c.toNat = 0xFEFF ||
          c = '\t' then ' '
  else if c = '“' || c = '”' then '"'
  else if c = '‘' || c = '’' then '\''
  else c

def pyTranslate (s : String) : String := ⟨s.data.map transChar⟩

/-- The substitution `parentheses_left.sub(r"\1 (", s)` of utils.py line 32:
insert one space between a non-space non-open-paren character and an
immediately following open paren, scanning left to right without overlap. -/
def parenLeftGo : List Char → List Char
  | c1 :: c2 :: rest =>
    if isPySpace c1 = false ∧ c1 ≠ '(' ∧ c2 = '(' then
      c1 :: ' ' :: '(' :: parenLeftGo rest
    else
      c1 :: parenLeftGo (c2 :: rest)
  | l => l

/-- The substitution `parentheses_right.sub(r") \1", s)` of utils.py line 33:
insert one space between a close paren and an immediately following non-space
non-close-paren character, scanning left to right without overlap. -/
def parenRightGo : List Char → List Char
  | c1 :: c2 :: rest =>
    if c1 = ')' ∧ isPySpace c2 = false ∧ c2 ≠ ')' then
      ')' :: ' ' :: c2 :: parenRightGo rest
    else
      c1 :: parenRightGo (c2 :: rest)
  | l => l

def parenLeftSub (s : String) : String := ⟨parenLeftGo s.data⟩

def parenRightSub (s : String) : String := ⟨parenRightGo s.data⟩

/-- Source `oltl.utils.normalize_jptext` (utils.py lines 36-42): NFKC normalization,
then the translation table, then the open-paren spacing substitution, then the
close-paren spacing substitution, exactly as nested on line 39-41. -/
def normalize_jptext (x : String) : String :=
  parenRightSub (parenLeftSub (pyTranslate (nfkc x)))

/-- Modelled fragment of Python `str.lower` (ASCII letters and the fullwidth
Latin capital block; other characters in the inputs considered are unchanged
by lowercasing). -/
def pyLowerChar (c : Char) : Char :=
  if 0x41 ≤ c.toNat && c.toNat ≤ 0x5A then Char.ofNat (c.toNat + 0x20)
  else if 0xFF21 ≤ c.toNat && c.toNat ≤ 0xFF3A then Char.ofNat (c.toNat + 0x20)
  else c

def isAsciiUpper (c : Char) : Bool := 0x41 ≤ c.toNat && c.toNat ≤ 0x5A

def isAsciiLower (c : Char) : Bool := 0x61 ≤ c.toNat && c.toNat ≤ 0x7A

def isAsciiDigit (c : Char) : Bool := 0x30 ≤ c.toNat && c.toNat ≤ 0x39

/-- Scan for `([A-Z]+)([A-Z][a-z])` replaced by the two groups joined with an
underscore: equivalently, an underscore is inserted between the last two
capitals of a capital run that is immediately followed by a lowercase letter,
resuming after the matched text. -/
def snakeSubCaps : List Char → List Char
  | a :: b :: c :: rest =>
    if isAsciiUpper a ∧ isAsciiUpper b ∧ isAsciiLower c then
      a :: '_' :: b :: c :: snakeSubCaps rest
    else
      a :: snakeSubCaps (b :: c :: rest)
  | l => l

/-- Scan for `([a-z])([A-Z])` replaced by the groups joined with an
underscore, resuming after the matched pair. -/
def snakeSubLowerUpper : List Char → List Char
  | a :: b :: rest =>
    if isAsciiLower a ∧ isAsciiUpper b then
      a :: '_' :: b :: snakeSubLowerUpper rest
    else
      a :: snakeSubLowerUpper (b :: rest)
  | l => l

/-- Scan for `([0-9])([A-Z])` replaced by the groups joined with an
underscore, resuming after the matched pair. -/
def snakeSubDigitUpper : List Char → List Char
  | a :: b :: rest =>
    if isAsciiDigit a ∧ isAsciiUpper b then
      a :: '_' :: b :: snakeSubDigitUpper rest
    else
      a :: snakeSubDigitUpper (b :: rest)
  | l => l

/-- Scan for `([a-z])([0-9])` replaced by the groups joined with an
underscore, resuming after the matched pair. -/
def snakeSubLowerDigit : List Char → List Char
  | a :: b :: rest =>
    if isAsciiLower a ∧ isAsciiDigit b then
      a :: '_' :: b :: snakeSubLowerDigit rest
    else
      a :: snakeSubLowerDigit (b :: rest)
  | l => l

/-- Source `pydantic.alias_generators.to_snake`, the external case-conversion
collaborator used by `SnakeCaseStringMixIn._proc_str` (core.py lines 374-375)
and for schema property keys (core.py line 858): the four regex substitutions
in source order, then hyphens to underscores, then lowercasing. -/
def toSnake (camel : String) : String :=
  let s1 := snakeSubCaps camel.data
  let s2 := snakeSubLowerUpper s1
  let s3 := snakeSubDigitUpper s2
  let s4 := snakeSubLowerDigit s3
  let s5 := s4.map (fun c => if c = '-' then '_' else c)
  ⟨s5.map pyLowerChar⟩

/-- The structural constraint dictionary assembled by the cooperating
`__get_extra_constraint_dict__` overrides (core.py lines 145-147, 188-190,
241-243, 331-333, 351-353): one optional entry per constraint kind. The
pattern constraint is carried as its induced acceptance test. -/
structure StrConstraints where
  minLength : Option Nat := none
  maxLength : Option Nat := none
  patternOk : Option (String → Bool) := none
  stripWhitespace : Option Bool := none

/-- Python dict union `base | override`: the override's entries win per key. -/
def StrConstraints.overlay (base override : StrConstraints) : StrConstraints where
  minLength := override.minLength.orElse fun _ => base.minLength
  maxLength := override.maxLength.orElse fun _ => base.maxLength
  patternOk := override.patternOk.orElse fun _ => base.patternOk
  stripWhitespace := override.stripWhitespace.orElse fun _ => base.stripWhitespace

/-- One string mixin over `BaseString`: its own `_proc_str` rewriting step
(identity when the mixin does not override `_proc_str`) and its contribution
to the structural constraint dictionary (empty when it does not override
`__get_extra_constraint_dict__`). -/
structure StrMixin where
  step : String → String := id
  constraints : StrConstraints := {}

/-- The `_proc_str` of a concrete type declared as
`class T(M1, ..., Mk, BaseString)`, listed left to right: every transform
mixin rewrites the value with its own step and passes the result to
`super()._proc_str` (core.py lines 261-263, 299-303, 374-375, 396-397), and
`BaseString._proc_str` is the identity (lines 122-124). -/
def procStr : List StrMixin → String → String
  | [], s => s
  | m :: ms, s => procStr ms (m.step s)

/-- The constraint dictionary of a concrete type: each mixin computes
`super().__get_extra_constraint_dict__() | own_entries`, so the dictionary of
the rest of the chain is overlaid with the mixin's own entries. -/
def extraConstraints : List StrMixin → StrConstraints
  | [] => {}
  | m :: ms => (extraConstraints ms).overlay m.constraints

inductive StrViolation where
  | stringTooShort
  | stringTooLong
  | stringPatternMismatch
deriving DecidableEq, Repr

/-- Strip per Python/Rust semantics: leading and trailing Unicode whitespace. -/
def pyStrip (s : String) : String :=
  ⟨((s.data.dropWhile isPySpace).reverse.dropWhile isPySpace).reverse⟩

/-- Modelled from the host validator (pydantic-core `str_schema`, configured
by `core_schema.str_schema(**constraints)` on core.py line 137): strip
whitespace first when requested, then check length in code points and the
pattern against the stripped value. -/
def strSchema (c : StrConstraints) (s : String) : Except StrViolation String :=
  let t := if c.stripWhitespace = some true then pyStrip s else s
  if c.minLength.any fun m => decide (t.data.length < m) then
    .error .stringTooShort
  else if c.maxLength.any fun m => decide (m < t.data.length) then
    .error .stringTooLong
  else if c.patternOk.any fun p => !p t then
    .error .stringPatternMismatch
  else
    .ok t

/-- The validation pipeline assembled by
`BaseString.__get_pydantic_core_schema__` (core.py lines 132-140): the
before-validator `_proc_str` rewrites the raw input, then the constrained
string schema runs on the result, then the after-validator wraps the value in
the class (content identity). -/
def validateString (mixins : List StrMixin) (s : String) : Except StrViolation String :=
  strSchema (extraConstraints mixins) (procStr mixins s)

/-- Source `BaseString.serialize` (core.py lines 142-143): `str(self)`. -/
def serializeBaseString (s : String) : String := s

/-- Source `NormalizedStringMixIn` (core.py lines 261-263). -/
def normalizedStringMixIn : StrMixin := { step := normalize_jptext }

/-- Source `SnakeCaseStringMixIn` (core.py lines 374-375). -/
def snakeCaseStringMixIn : StrMixin := { step := toSnake }

/-- Source `TrimmedStringMixIn` (core.py lines 351-353). -/
def trimmedStringMixIn : StrMixin :=
  { constraints := { stripWhitespace := some true } }

/-- Source `LimitedMinLengthStringMixIn` at a given `get_min_length` (lines 188-190). -/
def limitedMinLengthStringMixIn (n : Nat) : StrMixin :=
  { constraints := { minLength := some n } }

/-- Source `LimitedMaxLengthStringMixIn` at a given `get_max_length` (lines 241-243). -/
def limitedMaxLengthStringMixIn (n : Nat) : StrMixin :=
  { constraints := { maxLength := some n } }

/-- The fixture type `NormalizedSnakeCase(NormalizedStringMixIn,
SnakeCaseStringMixIn)` from tests/fixtures.py. -/
def NormalizedSnakeCase : List StrMixin := [normalizedStringMixIn, snakeCaseStringMixIn]

/-- The fixture type `TrimmedNormalized(TrimmedStringMixIn,
NormalizedStringMixIn)` from tests/fixtures.py. -/
def TrimmedNormalized : List StrMixin := [trimmedStringMixIn, normalizedStringMixIn]

/-- C1 (counterexample): the claim that a type composing `TransformA` then
`TransformB` (left-to-right) applies TransformB's step first and TransformA's
step second is false on the code: for the fixture type
`NormalizedSnakeCase(NormalizedStringMixIn, SnakeCaseStringMixIn)` and the
fixture input, validation does not produce the value the claimed order
(snake-case first, then normalization) would produce. -/
theorem c1_claimed_order_counterexample :
    validateString NormalizedSnakeCase "ｎｏｔＮｏｒｍａｌｉｚｅｄCamelCase" =
      Except.ok "not_normalized_camel_case" ∧
    validateString NormalizedSnakeCase "ｎｏｔＮｏｒｍａｌｉｚｅｄCamelCase" ≠
      Except.ok (normalize_jptext (toSnake "ｎｏｔＮｏｒｍａｌｉｚｅｄCamelCase")) := by
  refine ⟨rfl, fun h => ?_⟩
  have h1 : validateString NormalizedSnakeCase "ｎｏｔＮｏｒｍａｌｉｚｅｄCamelCase" =
      Except.ok "not_normalized_camel_case" := rfl
  have h2 : normalize_jptext (toSnake "ｎｏｔＮｏｒｍａｌｉｚｅｄCamelCase") =
      "notnormalizedcamel_case" := rfl
  rw [h1, h2] at h
  exact absurd (Except.ok.inj h) (by decide)

/-- C1 (amended): for every concrete string type composing transform mixins
left-to-right as TransformA then TransformB, validating an input string
applies TransformA's transform step first, then passes that result to
TransformB's step, and only then runs the jointly assembled structural check
(length/pattern/strip constraints). -/
theorem c1_transform_order (A B : StrMixin) (s : String) :
    validateString [A, B] s =
      strSchema (extraConstraints [A, B]) (B.step (A.step s)) := rfl

/-- C5: for the string type composing the trimmed and normalized mixins,
validating the fixture input with fullwidth spaces inside and around yields
exactly "not trimmed": normalization (which turns fullwidth spaces into ASCII
spaces) runs before whitespace trimming. -/
theorem c5_trimmed_normalized_eval :
    validateString TrimmedNormalized "　　not　trimmed　　" =
      Except.ok "not trimmed" := rfl

/-- C8: `normalize_jptext` is the composition, in order, of (a) NFKC
normalization, (b) the dash/space/quote substitution table, (c) insertion of a
space before an open paren following a non-space non-open-paren character, and
(d) insertion of a space after a close paren followed by a non-space
non-close-paren character; the table collapses every listed variant as
specified. The function is a total Lean function, hence pure, total and
deterministic with no failure mode. -/
theorem c8_normalize_steps :
    (∀ x, normalize_jptext x = parenRightSub (parenLeftSub (pyTranslate (nfkc x)))) ∧
    (normalize_jptext "˗" = "-" ∧ normalize_jptext "֊" = "-" ∧
     normalize_jptext "‐" = "-" ∧ normalize_jptext "‑" = "-" ∧
     normalize_jptext "‒" = "-" ∧ normalize_jptext "–" = "-" ∧
     normalize_jptext "⁃" = "-" ∧ normalize_jptext "⁻" = "-" ∧
     normalize_jptext "₋" = "-" ∧ normalize_jptext "−" = "-" ∧
     normalize_jptext "　" = " " ∧ normalize_jptext "​" = " " ∧
     normalize_jptext "﻿" = " " ∧ normalize_jptext "\t" = " " ∧
     normalize_jptext "“" = "\"" ∧ normalize_jptext "”" = "\"" ∧
     normalize_jptext "‘" = "'" ∧ normalize_jptext "’" = "'") ∧
    (∀ c, isPySpace c = false → c ≠ '(' →
      parenLeftSub ⟨[c, '(']⟩ = ⟨[c, ' ', '(']⟩) ∧
    (∀ c, isPySpace c = false → c ≠ ')' →
      parenRightSub ⟨[')', c]⟩ = ⟨[')', ' ', c]⟩) := by
  refine ⟨fun x => rfl, by decide, ?_, ?_⟩
  · intro c h1 h2
    simp [parenLeftSub, parenLeftGo, h1, h2]
  · intro c h1 h2
    simp [parenRightSub, parenRightGo, h1, h2]

/-- Witness for C8: the paren-spacing clauses at the concrete character 'a'. -/
theorem c8_normalize_steps_witness :
    isPySpace 'a' = false ∧ 'a' ≠ '(' ∧ 'a' ≠ ')' ∧
    parenLeftSub "a(" = "a (" ∧ parenRightSub ")a" = ") a" :=
  ⟨by decide, by decide, by decide,
   c8_normalize_steps.2.2.1 'a' (by decide) (by decide),
   c8_normalize_steps.2.2.2 'a' (by decide) (by decide)⟩

/-- The numeric constraint dictionary assembled by the cooperating
`__get_extra_constraint_dict__` overrides of the integer/float mixins
(core.py lines 451-453, 485-487, 541-543, 575-577). -/
structure NumConstraints (α : Type) where
  ge : Option α := none
  le : Option α := none

/-- Python dict union `base | override`: the override's entries win per key. -/
def NumConstraints.overlay {α : Type} (base override : NumConstraints α) :
    NumConstraints α where
  ge := override.ge.orElse fun _ => base.ge
  le := override.le.orElse fun _ => base.le

/-- Constraint dictionary of a concrete numeric type from its mixin list,
leftmost mixin most derived, mirroring the cooperative super-call chain. -/
def numExtraConstraints {α : Type} : List (NumConstraints α) → NumConstraints α
  | [] => {}
  | m :: ms => (numExtraConstraints ms).overlay m

inductive NumViolation where
  | greaterThanEqual
  | lessThanEqual
deriving DecidableEq, Repr

/-- Modelled from the host validator (pydantic-core `int_schema`/`float_schema`
with the `ge`/`le` options, core.py lines 433 and 523): inclusive bound
checks, rejecting a value strictly below `ge` or strictly above `le`. -/
def numSchema {α : Type} [LinearOrder α] (c : NumConstraints α) (x : α) :
    Except NumViolation α :=
  if c.ge.any fun g => decide (x < g) then .error .greaterThanEqual
  else if c.le.any fun l => decide (l < x) then .error .lessThanEqual
  else .ok x

/-- Source `LowerBoundIntegerMixIn.__get_extra_constraint_dict__` (lines 485-487):
contributes the inclusive entry `ge = get_min_value()`. -/
def lowerBoundIntegerMixIn (m : Int) : NumConstraints Int := { ge := some m }

/-- Modelled from the spec: `UpperBoundIntegerMixIn` is exported by
`oltl/__init__.py` (line 31) and exercised by tests/fixtures.py but its
definition is missing from src/oltl/core.py; per the spec's inclusive
lower/upper bound checks (and the fixtures' `less_than_equal` expectations)
it contributes the inclusive entry `le = get_max_value()`. -/
def upperBoundIntegerMixIn (m : Int) : NumConstraints Int := { le := some m }

/-- Source `LowerBoundFloatMixIn.__get_extra_constraint_dict__` (lines 575-577);
Python floats are modelled by rationals, which is exact for the order
comparisons the bound checks perform. -/
def lowerBoundFloatMixIn (m : ℚ) : NumConstraints ℚ := { ge := some m }

/-- Modelled from the spec: `UpperBoundFloatMixIn`, missing from
src/oltl/core.py like its integer counterpart; contributes the inclusive
entry `le = get_max_value()`. -/
def upperBoundFloatMixIn (m : ℚ) : NumConstraints ℚ := { le := some m }

/-- The validation pipeline assembled by
`BaseInteger.__get_pydantic_core_schema__` (core.py lines 429-435): the
constrained int schema, then `cls.validate`, which wraps without changing the
integer value. -/
def validateBoundedInt (c : NumConstraints Int) (x : Int) : Except NumViolation Int :=
  numSchema c x

/-- The validation pipeline assembled by
`BaseFloat.__get_pydantic_core_schema__` (core.py lines 519-525). -/
def validateBoundedFloat (c : NumConstraints ℚ) (x : ℚ) : Except NumViolation ℚ :=
  numSchema c x

/-- Source `BaseInteger.serialize` (core.py lines 448-449): `int(self)`. -/
def serializeBaseInteger (x : Int) : Int := x

/-- Source `BaseFloat.serialize` (core.py lines 538-539): `float(self)`. -/
def serializeBaseFloat (x : ℚ) : ℚ := x

/-- Source `Timestamp.__new__` on an int (core.py line 690): the value is stored as
the microsecond count unchanged. -/
def timestampOfInt (v : Int) : Int := v

/-- Source `Timestamp.serialize` (core.py lines 744-749): `int(self)`. -/
def timestampSerialize (t : Int) : Int := t

/-- Crockford base32 alphabet of the ULID text encoding (the external `ulid`
collaborator of the `Id` type). -/
def crockfordAlphabet : List Char :=
  ['0', '1', '2', '3', '4', '5', '6', '7', '8', '9', 'A', 'B', 'C', 'D',
   'E', 'F', 'G', 'H', 'J', 'K', 'M', 'N', 'P', 'Q', 'R', 'S', 'T', 'V',
   'W', 'X', 'Y', 'Z']

def crockfordChar (d : Nat) : Char := crockfordAlphabet.getD d '0'

def crockfordDigit? (c : Char) : Option Nat :=
  crockfordAlphabet.findIdx? (· == c)

/-- The `k` base-`b` digits of `n`, most significant first. -/
def beDigits (b : Nat) : Nat → Nat → List Nat
  | 0, _ => []
  | k + 1, n => beDigits b k (n / b) ++ [n % b]

/-- The 26-character Crockford base32 text form of a 128-bit identifier,
as produced by `str(self)` on a ULID (`Id.serialize`, core.py lines 610-617):
26 base-32 digits, most significant first. -/
def ulidEncode (n : Nat) : String := ⟨(beDigits 32 26 n).map crockfordChar⟩

def crockfordDecodeList : List Char → Option (List Nat)
  | [] => some []
  | c :: cs =>
    match crockfordDigit? c, crockfordDecodeList cs with
    | some d, some ds => some (d :: ds)
    | _, _ => none

/-- Source `ulid.base32.decode_ulid` on a 26-character string, as a 128-bit number. -/
def ulidDecode? (s : String) : Option Nat :=
  (crockfordDecodeList s.data).map (List.foldl (fun acc d => acc * 32 + d) 0)

/-- The string branch of `Id.__init__` (core.py lines 595-604): reject any
length other than 26, then base32-decode. -/
def idFromStr (s : String) : Except String Nat :=
  if s.data.length = 26 then
    match ulidDecode? s with
    | some n => .ok n
    | none => .error "Non-Base32 character"
  else .error "Invalid ULID string"

/-- Source `Id.serialize` (core.py lines 610-617): the 26-character text form. -/
def idSerialize (n : Nat) : String := ulidEncode n

theorem beDigits_length (b k : Nat) : ∀ n, (beDigits b k n).length = k := by
  induction k with
  | zero => intro n; rfl
  | succ k ih =>
    intro n
    simp [beDigits, ih]

theorem beDigits_lt (b k : Nat) (hb : 0 < b) :
    ∀ n, ∀ d ∈ beDigits b k n, d < b := by
  induction k with
  | zero => intro n d hd; cases hd
  | succ k ih =>
    intro n d hd
    rcases List.mem_append.mp hd with h | h
    · exact ih _ d h
    · rcases List.mem_singleton.mp h with rfl
      exact Nat.mod_lt _ hb

theorem foldl_beDigits (b k : Nat) (hb : 0 < b) :
    ∀ n, n < b ^ k →
      (beDigits b k n).foldl (fun acc d => acc * b + d) 0 = n := by
  induction k with
  | zero =>
    intro n hn
    have h0 : n = 0 := by
      rw [pow_zero] at hn
      omega
    subst h0
    rfl
  | succ k ih =>
    intro n hn
    have hdiv : n / b < b ^ k := by
      rw [Nat.div_lt_iff_lt_mul hb]
      calc n < b ^ (k + 1) := hn
        _ = b ^ k * b := by ring
    simp only [beDigits, List.foldl_append, List.foldl_cons, List.foldl_nil]
    rw [ih (n / b) hdiv]
    exact Nat.div_add_mod' n b

set_option maxHeartbeats 2000000 in
theorem crockford_digit_roundtrip : ∀ d : Fin 32,
    crockfordDigit? (crockfordChar d.val) = some d.val := by decide

theorem crockfordDecodeList_map (ds : List Nat) (h : ∀ d ∈ ds, d < 32) :
    crockfordDecodeList (ds.map crockfordChar) = some ds := by
  induction ds with
  | nil => rfl
  | cons d ds ih =>
    have hd : d < 32 := h d (List.mem_cons_self d ds)
    have := crockford_digit_roundtrip ⟨d, hd⟩
    simp only [List.map_cons, crockfordDecodeList, this,
      ih fun x hx => h x (List.mem_cons_of_mem d hx)]

theorem ulidEncode_data (n : Nat) :
    (ulidEncode n).data = List.map crockfordChar (beDigits 32 26 n) := by
  simp only [ulidEncode]

theorem ulidDecode_eq (s : String) :
    ulidDecode? s =
      Option.map (List.foldl (fun acc d => acc * 32 + d) 0)
        (crockfordDecodeList s.data) := by
  simp only [ulidDecode?]

theorem ulid_decode_encode (n : Nat) (h : n < 2 ^ 128) :
    ulidDecode? (ulidEncode n) = some n := by
  have hle : (2 : Nat) ^ 128 ≤ 32 ^ 26 := by norm_num
  have h32 : n < 32 ^ 26 := lt_of_lt_of_le h hle
  rw [ulidDecode_eq, ulidEncode_data,
    crockfordDecodeList_map _ (beDigits_lt 32 26 (by norm_num) n),
    Option.map_some', foldl_beDigits 32 26 (by norm_num) n h32]

/-- C4: for bounded integer and bounded float types, construction from a raw
number checks the lower and upper bounds inclusively — a value equal to a
declared bound is accepted, a value strictly below the lower bound is
rejected with a greater-than-equal failure, a value strictly above the upper
bound with a less-than-equal failure — and an in-range value serializes as
the bare number. -/
theorem c4_inclusive_bounds (lo hi x : Int) (ql qh q : ℚ) :
    (lo ≤ x → x ≤ hi →
      (validateBoundedInt
          (numExtraConstraints [upperBoundIntegerMixIn hi, lowerBoundIntegerMixIn lo])
          x).map serializeBaseInteger = .ok x) ∧
    (x < lo →
      validateBoundedInt
          (numExtraConstraints [upperBoundIntegerMixIn hi, lowerBoundIntegerMixIn lo])
          x = .error .greaterThanEqual) ∧
    (hi < x → lo ≤ x →
      validateBoundedInt
          (numExtraConstraints [upperBoundIntegerMixIn hi, lowerBoundIntegerMixIn lo])
          x = .error .lessThanEqual) ∧
    (ql ≤ q → q ≤ qh →
      (validateBoundedFloat
          (numExtraConstraints [upperBoundFloatMixIn qh, lowerBoundFloatMixIn ql])
          q).map serializeBaseFloat = .ok q) ∧
    (q < ql →
      validateBoundedFloat
          (numExtraConstraints [upperBoundFloatMixIn qh, lowerBoundFloatMixIn ql])
          q = .error .greaterThanEqual) ∧
    (qh < q → ql ≤ q →
      validateBoundedFloat
          (numExtraConstraints [upperBoundFloatMixIn qh, lowerBoundFloatMixIn ql])
          q = .error .lessThanEqual) := by
  refine ⟨?_, ?_, ?_, ?_, ?_, ?_⟩
  · intro h1 h2
    have hg : decide (x < lo) = false := decide_eq_false (not_lt.mpr h1)
    have hl : decide (hi < x) = false := decide_eq_false (not_lt.mpr h2)
    simp [validateBoundedInt, numSchema, numExtraConstraints,
      NumConstraints.overlay, upperBoundIntegerMixIn, lowerBoundIntegerMixIn,
      Option.any, Option.orElse, hg, hl, serializeBaseInteger, Except.map]
  · intro h1
    have hg : decide (x < lo) = true := decide_eq_true h1
    simp [validateBoundedInt, numSchema, numExtraConstraints,
      NumConstraints.overlay, upperBoundIntegerMixIn, lowerBoundIntegerMixIn,
      Option.any, Option.orElse, hg]
  · intro h1 h2
    have hg : decide (x < lo) = false := decide_eq_false (not_lt.mpr h2)
    have hl : decide (hi < x) = true := decide_eq_true h1
    simp [validateBoundedInt, numSchema, numExtraConstraints,
      NumConstraints.overlay, upperBoundIntegerMixIn, lowerBoundIntegerMixIn,
      Option.any, Option.orElse, hg, hl]
  · intro h1 h2
    have hg : decide (q < ql) = false := decide_eq_false (not_lt.mpr h1)
    have hl : decide (qh < q) = false := decide_eq_false (not_lt.mpr h2)
    simp [validateBoundedFloat, numSchema, numExtraConstraints,
      NumConstraints.overlay, upperBoundFloatMixIn, lowerBoundFloatMixIn,
      Option.any, Option.orElse, hg, hl, serializeBaseFloat, Except.map]
  · intro h1
    have hg : decide (q < ql) = true := decide_eq_true h1
    simp [validateBoundedFloat, numSchema, numExtraConstraints,
      NumConstraints.overlay, upperBoundFloatMixIn, lowerBoundFloatMixIn,
      Option.any, Option.orElse, hg]
  · intro h1 h2
    have hg : decide (q < ql) = false := decide_eq_false (not_lt.mpr h2)
    have hl : decide (qh < q) = true := decide_eq_true h1
    simp [validateBoundedFloat, numSchema, numExtraConstraints,
      NumConstraints.overlay, upperBoundFloatMixIn, lowerBoundFloatMixIn,
      Option.any, Option.orElse, hg, hl]

/-- Witness for C4: the fixture bounds 3..5 (integer) and 3.0..5.0 (float),
with the fixture probes 2, 3, 6 and 2.9, 3.0, 5.1. -/
theorem c4_inclusive_bounds_witness :
    ((validateBoundedInt
        (numExtraConstraints [upperBoundIntegerMixIn 5, lowerBoundIntegerMixIn 3])
        3).map serializeBaseInteger = .ok 3) ∧
    (validateBoundedInt
        (numExtraConstraints [upperBoundIntegerMixIn 5, lowerBoundIntegerMixIn 3])
        2 = .error .greaterThanEqual) ∧
    (validateBoundedInt
        (numExtraConstraints [upperBoundIntegerMixIn 5, lowerBoundIntegerMixIn 3])
        6 = .error .lessThanEqual) ∧
    ((validateBoundedFloat
        (numExtraConstraints [upperBoundFloatMixIn 5, lowerBoundFloatMixIn 3])
        3).map serializeBaseFloat = .ok 3) ∧
    (validateBoundedFloat
        (numExtraConstraints [upperBoundFloatMixIn 5, lowerBoundFloatMixIn 3])
        (29 / 10) = .error .greaterThanEqual) ∧
    (validateBoundedFloat
        (numExtraConstraints [upperBoundFloatMixIn 5, lowerBoundFloatMixIn 3])
        (51 / 10) = .error .lessThanEqual) :=
  ⟨(c4_inclusive_bounds 3 5 3 0 0 0).1 (by norm_num) (by norm_num),
   (c4_inclusive_bounds 3 5 2 0 0 0).2.1 (by norm_num),
   (c4_inclusive_bounds 3 5 6 0 0 0).2.2.1 (by norm_num) (by norm_num),
   (c4_inclusive_bounds 0 0 0 3 5 3).2.2.2.1 (by norm_num) (by norm_num),
   (c4_inclusive_bounds 0 0 0 3 5 (29 / 10)).2.2.2.2.1 (by norm_num),
   (c4_inclusive_bounds 0 0 0 3 5 (51 / 10)).2.2.2.2.2 (by norm_num) (by norm_num)⟩

/-- C6: serialize-after-construct round-trips the wire value for each value
type at every wire value satisfying the type's constraints: a plain
`BaseString` value round-trips to the same string, an in-range bounded
integer to the same integer, an identifier's canonical 26-character text form
to the same text, and an integer-microseconds timestamp to the same integer. -/
theorem c6_serialize_construct_roundtrip :
    (∀ s : String, (validateString [] s).map serializeBaseString = .ok s) ∧
    (∀ lo hi x : Int, lo ≤ x → x ≤ hi →
      (validateBoundedInt
          (numExtraConstraints [upperBoundIntegerMixIn hi, lowerBoundIntegerMixIn lo])
          x).map serializeBaseInteger = .ok x) ∧
    (∀ n : Nat, n < 2 ^ 128 →
      (idFromStr (ulidEncode n)).map idSerialize = .ok (ulidEncode n)) ∧
    (∀ v : Int, timestampSerialize (timestampOfInt v) = v) := by
  refine ⟨fun s => rfl, ?_, ?_, fun v => rfl⟩
  · intro lo hi x h1 h2
    have hg : decide (x < lo) = false := decide_eq_false (not_lt.mpr h1)
    have hl : decide (hi < x) = false := decide_eq_false (not_lt.mpr h2)
    simp [validateBoundedInt, numSchema, numExtraConstraints,
      NumConstraints.overlay, upperBoundIntegerMixIn, lowerBoundIntegerMixIn,
      Option.any, Option.orElse, hg, hl, serializeBaseInteger, Except.map]
  · intro n hn
    have hlen : (ulidEncode n).data.length = 26 := by
      rw [ulidEncode_data, List.length_map, beDigits_length]
    have hdec := ulid_decode_encode n hn
    simp [idFromStr, hlen, hdec, idSerialize, Except.map]

/-- Witness for C6: bounds 0..10 with value 7, and the identifier with
value 1. -/
theorem c6_serialize_construct_roundtrip_witness :
    ((validateBoundedInt
        (numExtraConstraints [upperBoundIntegerMixIn 10, lowerBoundIntegerMixIn 0])
        7).map serializeBaseInteger = .ok 7) ∧
    ((idFromStr (ulidEncode 1)).map idSerialize = .ok (ulidEncode 1)) :=
  ⟨c6_serialize_construct_roundtrip.2.1 0 10 7 (by norm_num) (by norm_num),
   c6_serialize_construct_roundtrip.2.2.1 1 (by norm_num)⟩

/-- The standard base64 alphabet used by `base64.standard_b64encode` and
`base64.standard_b64decode`, the external collaborators of `BaseBytes`
(core.py lines 63-66 and 83-84). -/
def b64Alphabet : List Char :=
  ['A', 'B', 'C', 'D', 'E', 'F', 'G', 'H', 'I', 'J', 'K', 'L', 'M', 'N',
   'O', 'P', 'Q', 'R', 'S', 'T', 'U', 'V', 'W', 'X', 'Y', 'Z', 'a', 'b',
   'c', 'd', 'e', 'f', 'g', 'h', 'i', 'j', 'k', 'l', 'm', 'n', 'o', 'p',
   'q', 'r', 's', 't', 'u', 'v', 'w', 'x', 'y', 'z', '0', '1', '2', '3',
   '4', '5', '6', '7', '8', '9', '+', '/']

def b64Char (d : Nat) : Char := b64Alphabet.getD d 'A'

def b64Digit? (c : Char) : Option Nat := b64Alphabet.findIdx? (· == c)

/-- Source `base64.standard_b64encode` over bytes as numbers below 256: each group
of three bytes becomes four sextet characters; a final group of one or two
bytes is padded with '=' characters. -/
def b64Encode : List Nat → List Char
  | [] => []
  | [x] => [b64Char (x / 4), b64Char (x % 4 * 16), '=', '=']
  | [x, y] =>
    [b64Char (x / 4), b64Char (x % 4 * 16 + y / 16), b64Char (y % 16 * 4), '=']
  | x :: y :: z :: rest =>
    b64Char (x / 4) :: b64Char (x % 4 * 16 + y / 16) ::
    b64Char (y % 16 * 4 + z / 64) :: b64Char (z % 64) :: b64Encode rest

/-- One four-character base64 group: two trailing pad characters yield one
byte, one trailing pad character two bytes, no padding three bytes; any
non-alphabet character fails. -/
def b64DecodeChunk (a b c d : Char) : Option (List Nat) :=
  match b64Digit? a, b64Digit? b with
  | some da, some db =>
    if c = '=' ∧ d = '=' then some [da * 4 + db / 16]
    else
      match b64Digit? c with
      | some dc =>
        if d = '=' then some [da * 4 + db / 16, db % 16 * 16 + dc / 4]
        else
          match b64Digit? d with
          | some dd =>
            some [da * 4 + db / 16, db % 16 * 16 + dc / 4, dc % 4 * 64 + dd]
          | none => none
      | none => none
  | _, _ => none

/-- Source `base64.standard_b64decode`: the text length must be a multiple of four;
each four-character group is decoded in turn. -/
def b64Decode : List Char → Option (List Nat)
  | [] => some []
  | a :: b :: c :: d :: rest =>
    match b64DecodeChunk a b c d, b64Decode rest with
    | some bytes, some tail => some (bytes ++ tail)
    | _, _ => none
  | _ => none

/-- The bytes branch of `BaseBytes.__new__` (core.py lines 63-65): identity. -/
def baseBytesOfBytes (b : List Nat) : List Nat := b

/-- The str branch of `BaseBytes.__new__` (core.py line 66):
`standard_b64decode` of the text. -/
def baseBytesOfStr (s : String) : Option (List Nat) := b64Decode s.data

/-- Source `BaseBytes.serialize` (core.py lines 83-84): `standard_b64encode`
decoded to text. -/
def baseBytesSerialize (b : List Nat) : String := ⟨b64Encode b⟩

set_option maxHeartbeats 4000000 in
theorem b64_digit_roundtrip : ∀ d : Fin 64,
    b64Digit? (b64Char d.val) = some d.val := by decide

set_option maxHeartbeats 4000000 in
theorem b64Char_ne_pad : ∀ d : Fin 64, b64Char d.val ≠ '=' := by decide

theorem b64_chunk_pad2 (x : Nat) (hx : x < 256) :
    b64DecodeChunk (b64Char (x / 4)) (b64Char (x % 4 * 16)) '=' '=' =
      some [x] := by
  have h1 := b64_digit_roundtrip ⟨x / 4, by omega⟩
  have h2 := b64_digit_roundtrip ⟨x % 4 * 16, by omega⟩
  have e1 : x / 4 * 4 + x % 4 * 16 / 16 = x := by omega
  simp [b64DecodeChunk, h1, h2, e1] <;> omega

theorem b64_chunk_pad1 (x y : Nat) (hx : x < 256) (hy : y < 256) :
    b64DecodeChunk (b64Char (x / 4)) (b64Char (x % 4 * 16 + y / 16))
      (b64Char (y % 16 * 4)) '=' = some [x, y] := by
  have h1 := b64_digit_roundtrip ⟨x / 4, by omega⟩
  have h2 := b64_digit_roundtrip ⟨x % 4 * 16 + y / 16, by omega⟩
  have h3 := b64_digit_roundtrip ⟨y % 16 * 4, by omega⟩
  have hne : b64Char (y % 16 * 4) ≠ '=' := b64Char_ne_pad ⟨y % 16 * 4, by omega⟩
  have e1 : x / 4 * 4 + (x % 4 * 16 + y / 16) / 16 = x := by omega
  have e2 : (x % 4 * 16 + y / 16) % 16 * 16 + y % 16 * 4 / 4 = y := by omega
  simp [b64DecodeChunk, h1, h2, h3, hne, e1, e2] <;> omega

theorem b64_chunk_full (x y z : Nat) (hx : x < 256) (hy : y < 256)
    (hz : z < 256) :
    b64DecodeChunk (b64Char (x / 4)) (b64Char (x % 4 * 16 + y / 16))
      (b64Char (y % 16 * 4 + z / 64)) (b64Char (z % 64)) = some [x, y, z] := by
  have h1 := b64_digit_roundtrip ⟨x / 4, by omega⟩
  have h2 := b64_digit_roundtrip ⟨x % 4 * 16 + y / 16, by omega⟩
  have h3 := b64_digit_roundtrip ⟨y % 16 * 4 + z / 64, by omega⟩
  have h4 := b64_digit_roundtrip ⟨z % 64, by omega⟩
  have hne1 : b64Char (y % 16 * 4 + z / 64) ≠ '=' :=
    b64Char_ne_pad ⟨y % 16 * 4 + z / 64, by omega⟩
  have hne2 : b64Char (z % 64) ≠ '=' := b64Char_ne_pad ⟨z % 64, by omega⟩
  have e1 : x / 4 * 4 + (x % 4 * 16 + y / 16) / 16 = x := by omega
  have e2 : (x % 4 * 16 + y / 16) % 16 * 16 + (y % 16 * 4 + z / 64) / 4 = y := by
    omega
  have e3 : (y % 16 * 4 + z / 64) % 4 * 64 + z % 64 = z := by omega
  simp [b64DecodeChunk, h1, h2, h3, h4, hne1, hne2, e1, e2, e3] <;> omega

/-- C7: for every byte string, including ones that are not valid UTF-8 text,
constructing a bytes value, serializing it to base64 text, and constructing a
bytes value back from that text returns exactly the original bytes. -/
theorem c7_base64_roundtrip (bs : List Nat) (h : ∀ b ∈ bs, b < 256) :
    baseBytesOfStr (baseBytesSerialize (baseBytesOfBytes bs)) = some bs := by
  show b64Decode (b64Encode bs) = some bs
  induction bs using b64Encode.induct with
  | case1 => rfl
  | case2 x =>
    have hx : x < 256 := h x (by simp)
    simp [b64Encode, b64Decode, b64_chunk_pad2 x hx]
  | case3 x y =>
    have hx : x < 256 := h x (by simp)
    have hy : y < 256 := h y (by simp)
    simp [b64Encode, b64Decode, b64_chunk_pad1 x y hx hy]
  | case4 x y z rest ih =>
    have hx : x < 256 := h x (by simp)
    have hy : y < 256 := h y (by simp)
    have hz : z < 256 := h z (by simp)
    have hrest : ∀ b ∈ rest, b < 256 := fun b hb => h b (by simp [hb])
    simp [b64Encode, b64Decode, b64_chunk_full x y z hx hy hz, ih hrest]

/-- Witness for C7: the three-byte string [0, 255, 10], which is not valid
UTF-8. -/
theorem c7_base64_roundtrip_witness :
    baseBytesOfStr (baseBytesSerialize (baseBytesOfBytes [0, 255, 10])) =
      some [0, 255, 10] :=
  c7_base64_roundtrip [0, 255, 10] (by decide)

/-- Update one field of a model instance's field store. -/
def setField : List (String × Int) → String → Int → List (String × Int)
  | [], name, v => [(name, v)]
  | (k, w) :: rest, name, v =>
    if k = name then (k, v) :: rest else (k, w) :: setField rest name v

/-- Modelled from the host framework: `super().__setattr__` under
`validate_assignment=True` (the `BaseModel` config, core.py line 774):
validate the assigned value for the target field and mutate only that field;
a validation failure raises and leaves the instance unchanged. Field contents
are integer-valued, which is enough to observe the stamping behavior. -/
def pydanticSetattr (validator : String → Int → Bool)
    (st : List (String × Int)) (name : String) (v : Int) :
    Except String (List (String × Int)) :=
  if validator name v then .ok (setField st name v)
  else .error "validation error"

/-- Source `BaseUpdateTimeAwareModel.__setattr__` (core.py lines 960-967) over a
delegated assignment `superSet`: assigning the updated-timestamp field itself
delegates directly and stops (lines 961-962); any other assignment is
delegated, a raised error is re-raised unchanged (the try/except of lines
963-966), and only on success is the updated-timestamp field then assigned
the current instant (line 967). -/
def setattrUTA {St E V : Type} (superSet : St → String → V → Except E St)
    (now : V) (st : St) (name : String) (v : V) : Except E St :=
  if name = "updated_at" then superSet st name v
  else
    match superSet st name v with
    | .error e => .error e
    | .ok st2 => superSet st2 "updated_at" now

/-- C3: for every update-time-aware record: assigning the updated-timestamp
field applies directly and stops; assigning any other field either fails, in
which case exactly the delegated error propagates and no state (in particular
not the updated timestamp) is produced, or succeeds, in which case the
delegated assignment is followed by assigning "now" to the updated-timestamp
field — the stamp happens exactly when the delegated assignment succeeds. -/
theorem c3_update_stamp (validator : String → Int → Bool)
    (st : List (String × Int)) (name : String) (v now : Int) :
    (setattrUTA (pydanticSetattr validator) now st "updated_at" v =
      pydanticSetattr validator st "updated_at" v) ∧
    (name ≠ "updated_at" → validator name v = false →
      setattrUTA (pydanticSetattr validator) now st name v =
        .error "validation error") ∧
    (name ≠ "updated_at" → validator name v = true →
      validator "updated_at" now = true →
      setattrUTA (pydanticSetattr validator) now st name v =
        .ok (setField (setField st name v) "updated_at" now)) := by
  refine ⟨by simp [setattrUTA], ?_, ?_⟩
  · intro h1 h2
    simp [setattrUTA, pydanticSetattr, h1, h2]
  · intro h1 h2 h3
    simp [setattrUTA, pydanticSetattr, h1, h2, h3]

/-- Witness for C3: a two-field instance whose non-timestamp field "x" only
accepts nonnegative values; assigning -1 fails without stamping, assigning 7
succeeds and stamps the updated timestamp with "now" = 9. -/
theorem c3_update_stamp_witness :
    (setattrUTA (pydanticSetattr fun _ v => decide (0 ≤ v)) 9
        [("x", 0), ("updated_at", 5)] "updated_at" 7 =
      pydanticSetattr (fun _ v => decide (0 ≤ v))
        [("x", 0), ("updated_at", 5)] "updated_at" 7) ∧
    (setattrUTA (pydanticSetattr fun _ v => decide (0 ≤ v)) 9
        [("x", 0), ("updated_at", 5)] "x" (-1) = .error "validation error") ∧
    (setattrUTA (pydanticSetattr fun _ v => decide (0 ≤ v)) 9
        [("x", 0), ("updated_at", 5)] "x" 7 =
      .ok [("x", 7), ("updated_at", 9)]) :=
  ⟨(c3_update_stamp (fun _ v => decide (0 ≤ v))
      [("x", 0), ("updated_at", 5)] "x" 7 9).1,
   (c3_update_stamp (fun _ v => decide (0 ≤ v))
      [("x", 0), ("updated_at", 5)] "x" (-1) 9).2.1 (by decide) (by decide),
   (c3_update_stamp (fun _ v => decide (0 ≤ v))
      [("x", 0), ("updated_at", 5)] "x" 7 9).2.2 (by decide) (by decide)
      (by decide)⟩

/-- The Python type expressions produced by `_json_schema_type_to_python_type`
and `_property_to_model` (core.py lines 806-862): primitives, typed
sequences, bare list/dict, and dynamically created model classes (a class
name plus the snake-cased required fields). -/
inductive PyType where
  | pyInt
  | pyStr
  | pyFloat
  | pyBool
  | pySeq (t : PyType)
  | pyList
  | pyDict
  | pyModel (name : String) (fields : List (String × PyType))

/-- The two Python exception kinds the reconstruction code distinguishes:
`KeyError` (caught by the fixed-point loop, core.py line 904) and
`ValueError` (never caught). -/
inductive PyErr where
  | keyError (k : String)
  | valueError (msg : String)
deriving DecidableEq, Repr

/-- The keys `_json_schema_type_to_python_type` reads from an `items` value
(core.py lines 818-829). -/
structure ItemsDesc where
  type? : Option String := none
  ref? : Option String := none

/-- The keys `_json_schema_type_to_python_type` reads from a type descriptor
(core.py lines 806-837). -/
structure TypeDesc where
  type? : Option String := none
  items? : Option ItemsDesc := none
  ref? : Option String := none

/-- One `$defs` entry as consumed by `_property_to_model`: its `title` and
`properties` keys. -/
structure DefSchema where
  title? : Option String := none
  properties? : Option (List (String × TypeDesc)) := none

/-- The root schema document: `title`, `properties` and the `$defs` map
(core.py lines 865-910). -/
structure SchemaDoc where
  title? : Option String := none
  properties? : Option (List (String × TypeDesc)) := none
  defs : List (String × DefSchema) := []

/-- The `primitive_map` of core.py lines 807-812. -/
def primitiveMap? (t : String) : Option PyType :=
  if t = "integer" then some .pyInt
  else if t = "string" then some .pyStr
  else if t = "number" then some .pyFloat
  else if t = "boolean" then some .pyBool
  else none

/-- Source `_json_schema_type_to_python_type` (core.py lines 806-837), with the
exception kind each failing branch raises: the primitive lookup
`primitive_map[items["type"]]` on line 821 raises KeyError for a
non-primitive items type; an unresolved `$ref` inside array `items` raises
ValueError (line 829); an unresolved direct `$ref` (lines 833, 836) raises
KeyError from the `defs[...]` subscript; a shape with neither `type` nor
`$ref` raises ValueError (line 837). -/
def jsonSchemaTypeToPythonType (d : TypeDesc) (defs : List (String × PyType)) :
    Except PyErr PyType :=
  match d.type? with
  | some t =>
    match primitiveMap? t with
    | some p => .ok p
    | none =>
      if t = "array" then
        match d.items? with
        | some items =>
          match items.type? with
          | some tt =>
            match primitiveMap? tt with
            | some p => .ok (.pySeq p)
            | none => .error (.keyError tt)
          | none =>
            match items.ref? with
            | some r =>
              match defs.lookup r with
              | some m => .ok (.pySeq m)
              | none => .error (.valueError "Cannot convert to Python type")
            | none => .ok .pyList
        | none => .ok .pyList
      else if t = "object" then
        match d.ref? with
        | some r =>
          match defs.lookup r with
          | some m => .ok m
          | none => .error (.keyError r)
        | none => .ok .pyDict
      else
        match d.ref? with
        | some r =>
          match defs.lookup r with
          | some m => .ok m
          | none => .error (.keyError r)
        | none => .error (.valueError "Cannot convert to Python type")
  | none =>
    match d.ref? with
    | some r =>
      match defs.lookup r with
      | some m => .ok m
      | none => .error (.keyError r)
    | none => .error (.valueError "Cannot convert to Python type")

/-- The field table of `_property_to_model` (core.py line 858): each property
key is snake-cased and its type resolved in order; the first failure
propagates. -/
def fieldsOfProps :
    List (String × TypeDesc) → List (String × PyType) →
    Except PyErr (List (String × PyType))
  | [], _ => .ok []
  | (k, td) :: rest, defs =>
    match jsonSchemaTypeToPythonType td defs with
    | .error e => .error e
    | .ok t =>
      match fieldsOfProps rest defs with
      | .error e => .error e
      | .ok fs => .ok ((toSnake k, t) :: fs)

/-- Source `_property_to_model` (core.py lines 840-862) on a schema's `title` and
`properties`: a missing `properties` key raises KeyError (the subscript on
line 858), the class is named from `title` with the generic fallback, and
one required field is declared per property. -/
def propertyToModel (title? : Option String)
    (props? : Option (List (String × TypeDesc)))
    (defs : List (String × PyType)) : Except PyErr PyType :=
  match props? with
  | none => .error (.keyError "properties")
  | some props =>
    match fieldsOfProps props defs with
    | .error e => .error e
    | .ok fs => .ok (.pyModel (title?.getD "GeneratedModel") fs)

/-- One pass of the fixed-point loop (core.py lines 897-906): each still
unresolved `$defs` entry is attempted in order against the definitions
resolved so far; on success it is popped and recorded under its
`#/$defs/<name>` key, a KeyError defers it to the next pass, and any other
exception aborts the whole pass (the entry stays unpopped). Returns the
remaining unresolved entries, the resolved map, and the aborting error if
any. -/
def resolvePassGo :
    List (String × DefSchema) → List (String × DefSchema) →
    List (String × PyType) →
    List (String × DefSchema) × List (String × PyType) × Option PyErr
  | [], kept, resolved => (kept, resolved, none)
  | (k, d) :: rest, kept, resolved =>
    match propertyToModel d.title? d.properties? resolved with
    | .ok m => resolvePassGo rest kept (resolved ++ [("#/$defs/" ++ k, m)])
    | .error (.keyError s) => resolvePassGo rest (kept ++ [(k, d)]) resolved
    | .error (.valueError m) => (kept ++ (k, d) :: rest, resolved, some (.valueError m))

theorem resolvePassGo_fst_length :
    ∀ (l kept : List (String × DefSchema)) (res : List (String × PyType)),
      (resolvePassGo l kept res).1.length ≤ kept.length + l.length := by
  intro l
  induction l with
  | nil => intro kept res; simp [resolvePassGo]
  | cons hd tl ih =>
    intro kept res
    obtain ⟨k, d⟩ := hd
    simp only [resolvePassGo]
    cases hres : propertyToModel d.title? d.properties? res with
    | ok m =>
      have := ih kept (res ++ [("#/$defs/" ++ k, m)])
      simp only [List.length_cons]
      omega
    | error e =>
      cases e with
      | keyError s =>
        have := ih (kept ++ [(k, d)]) res
        simp only [List.length_append, List.length_cons, List.length_nil] at this ⊢
        omega
      | valueError m =>
        simp only [List.length_append, List.length_cons]
        omega

theorem resolvePassGo_fst_sublist :
    ∀ (l kept : List (String × DefSchema)) (res : List (String × PyType)),
      (resolvePassGo l kept res).1.Sublist (kept ++ l) := by
  intro l
  induction l with
  | nil => intro kept res; simp [resolvePassGo]
  | cons hd tl ih =>
    intro kept res
    obtain ⟨k, d⟩ := hd
    simp only [resolvePassGo]
    cases hres : propertyToModel d.title? d.properties? res with
    | ok m =>
      have h1 := ih kept (res ++ [("#/$defs/" ++ k, m)])
      have h2 : (kept ++ tl).Sublist (kept ++ (k, d) :: tl) :=
        (List.append_sublist_append_left kept).mpr
          (List.sublist_cons_self (k, d) tl)
      exact h1.trans h2
    | error e =>
      cases e with
      | keyError s =>
        have h1 := ih (kept ++ [(k, d)]) res
        have h2 : (kept ++ [(k, d)] ++ tl).Sublist (kept ++ (k, d) :: tl) := by
          rw [List.append_assoc]
          exact List.Sublist.refl _
        exact h1.trans h2
      | valueError m => exact List.Sublist.refl _

/-- The fixed-point loop of `json_schema_to_model` (core.py lines 895-908):
while entries remain unresolved, run one pass; an uncaught exception
propagates, and a pass that resolves nothing raises the unresolvable-reference
ValueError. Returns the outcome together with the `$defs` entries still
unpopped at exit, i.e. the final state of the caller's mutated `$defs`
dictionary. -/
def resolveLoop (unresolved : List (String × DefSchema))
    (resolved : List (String × PyType)) :
    Except PyErr (List (String × PyType)) × List (String × DefSchema) :=
  match unresolved with
  | [] => (.ok resolved, [])
  | u1 :: urest =>
    match hp : resolvePassGo (u1 :: urest) [] resolved with
    | (left, res2, some e) => (.error e, left)
    | (left, res2, none) =>
      if hlen : (u1 :: urest).length = left.length then
        (.error (.valueError "Cannot resolve all references"), left)
      else resolveLoop left res2
termination_by unresolved.length
decreasing_by
  have hle := resolvePassGo_fst_length (u1 :: urest) [] resolved
  rw [hp] at hle
  simp only [List.length_nil, List.length_cons] at hle hlen ⊢
  omega

/-- Source `json_schema_to_model` (core.py lines 865-910) together with the final
state of the input document's `$defs` dictionary, which the loop mutates by
popping each entry it resolves; the rest of the input document is only read.
The missing-`properties` check on lines 891-892 runs before the loop. -/
def jsonSchemaToModelFull (js : SchemaDoc) :
    Except PyErr PyType × List (String × DefSchema) :=
  match js.properties? with
  | none => (.error (.valueError "properties key is not found in json_schema"), js.defs)
  | some _ =>
    match resolveLoop js.defs [] with
    | (.error e, left) => (.error e, left)
    | (.ok resolved, left) => (propertyToModel js.title? js.properties? resolved, left)

/-- Source `json_schema_to_model`: the returned model or raised exception. -/
def jsonSchemaToModel (js : SchemaDoc) : Except PyErr PyType :=
  (jsonSchemaToModelFull js).1

theorem resolveLoop_error_eq {u1 : String × DefSchema}
    {urest : List (String × DefSchema)} {r : List (String × PyType)}
    {left : List (String × DefSchema)} {res2 : List (String × PyType)}
    {e : PyErr}
    (hp : resolvePassGo (u1 :: urest) [] r = (left, res2, some e)) :
    resolveLoop (u1 :: urest) r = (.error e, left) := by
  rw [resolveLoop.eq_def]
  split
  next heq => simp at heq
  next left2 res3 heq =>
    injection heq with h1 h2
    subst h1; subst h2
    split
    next l3 r3 e3 heq2 =>
      rw [hp] at heq2
      simp only [Prod.mk.injEq, Option.some.injEq] at heq2
      obtain ⟨h1, h2, h3⟩ := heq2
      subst h1; subst h3
      rfl
    next l3 r3 heq2 =>
      rw [hp] at heq2
      simp at heq2

theorem resolveLoop_stall_eq {u1 : String × DefSchema}
    {urest : List (String × DefSchema)} {r : List (String × PyType)}
    {left : List (String × DefSchema)} {res2 : List (String × PyType)}
    (hp : resolvePassGo (u1 :: urest) [] r = (left, res2, none))
    (hlen : (u1 :: urest).length = left.length) :
    resolveLoop (u1 :: urest) r =
      (.error (.valueError "Cannot resolve all references"), left) := by
  rw [resolveLoop.eq_def]
  split
  next heq => simp at heq
  next left2 res3 heq =>
    injection heq with h1 h2
    subst h1; subst h2
    split
    next l3 r3 e3 heq2 =>
      rw [hp] at heq2
      simp at heq2
    next l3 r3 heq2 =>
      rw [hp] at heq2
      simp only [Prod.mk.injEq] at heq2
      obtain ⟨h1, h2, h3⟩ := heq2
      subst h1
      rw [dif_pos hlen]

theorem resolveLoop_step_eq {u1 : String × DefSchema}
    {urest : List (String × DefSchema)} {r : List (String × PyType)}
    {left : List (String × DefSchema)} {res2 : List (String × PyType)}
    (hp : resolvePassGo (u1 :: urest) [] r = (left, res2, none))
    (hlen : ¬(u1 :: urest).length = left.length) :
    resolveLoop (u1 :: urest) r = resolveLoop left res2 := by
  rw [resolveLoop.eq_def]
  split
  next heq => simp at heq
  next left2 res3 heq =>
    injection heq with h1 h2
    subst h1; subst h2
    split
    next l3 r3 e3 heq2 =>
      rw [hp] at heq2
      simp at heq2
    next l3 r3 heq2 =>
      rw [hp] at heq2
      simp only [Prod.mk.injEq] at heq2
      obtain ⟨h1, h2, h3⟩ := heq2
      subst h1; subst h2
      rw [dif_neg hlen]

theorem resolveLoop_snd_sublist (u : List (String × DefSchema))
    (r : List (String × PyType)) : (resolveLoop u r).2.Sublist u := by
  induction u, r using resolveLoop.induct with
  | case1 r => simp [resolveLoop]
  | case2 r u1 urest left res2 e hp =>
    have hs := resolvePassGo_fst_sublist (u1 :: urest) [] r
    rw [hp] at hs
    rw [resolveLoop_error_eq hp]
    simpa using hs
  | case3 r u1 urest left res2 hp hlen =>
    have hs := resolvePassGo_fst_sublist (u1 :: urest) [] r
    rw [hp] at hs
    rw [resolveLoop_stall_eq hp hlen]
    simpa using hs
  | case4 r u1 urest left res2 hp hlen ih =>
    have hs := resolvePassGo_fst_sublist (u1 :: urest) [] r
    rw [hp] at hs
    rw [resolveLoop_step_eq hp hlen]
    exact ih.trans (by simpa using hs)

theorem resolveLoop_ok_empty (u : List (String × DefSchema))
    (r : List (String × PyType)) :
    ∀ x, (resolveLoop u r).1 = .ok x → (resolveLoop u r).2 = [] := by
  induction u, r using resolveLoop.induct with
  | case1 r => intro x _; simp [resolveLoop]
  | case2 r u1 urest left res2 e hp =>
    intro x hx
    rw [resolveLoop_error_eq hp] at hx
    simp at hx
  | case3 r u1 urest left res2 hp hlen =>
    intro x hx
    rw [resolveLoop_stall_eq hp hlen] at hx
    simp at hx
  | case4 r u1 urest left res2 hp hlen ih =>
    intro x hx
    rw [resolveLoop_step_eq hp hlen] at hx ⊢
    exact ih x hx

def tdPrim (t : String) : TypeDesc := { type? := some t }

def tdRef (r : String) : TypeDesc := { ref? := some r }

def tdArrayRef (r : String) : TypeDesc :=
  { type? := some "array", items? := some { ref? := some r } }

/-- The spec's failing example: a document whose sole `$defs` entry
references itself. -/
def selfRefDoc : SchemaDoc where
  title? := some "MyModel"
  properties? := some [("x", tdRef "#/$defs/A")]
  defs := [("A", { title? := some "A",
                   properties? := some [("a", tdRef "#/$defs/A")] })]

/-- The spec's out-of-declaration-order example: the first `$defs` entry
references the second through a direct `$ref`. -/
def outOfOrderDoc : SchemaDoc where
  title? := some "MyModel"
  properties? := some [("x", tdRef "#/$defs/A")]
  defs :=
    [("A", { title? := some "A",
             properties? := some [("b", tdRef "#/$defs/B")] }),
     ("B", { title? := some "B",
             properties? := some [("n", tdPrim "integer")] })]

/-- A document whose first `$defs` entry needs the second through an
array-items `$ref` instead of a direct `$ref`. -/
def arrayForwardRefDoc : SchemaDoc where
  title? := some "MyModel"
  properties? := some [("a", tdRef "#/$defs/A")]
  defs :=
    [("A", { title? := some "A",
             properties? := some [("bs", tdArrayRef "#/$defs/B")] }),
     ("B", { title? := some "B",
             properties? := some [("n", tdPrim "integer")] })]

/-- The model reconstructed for the `$defs` entry "B". -/
def modelB : PyType := .pyModel "B" [("n", .pyInt)]

/-- The model reconstructed for the `$defs` entry "A" of `outOfOrderDoc`. -/
def modelA : PyType := .pyModel "A" [("b", modelB)]

/-- The root model reconstructed from `outOfOrderDoc`. -/
def modelMyModel : PyType := .pyModel "MyModel" [("x", modelA)]

theorem resolveLoop_nil (r : List (String × PyType)) :
    resolveLoop [] r = (.ok r, []) := by
  rw [resolveLoop.eq_def]

theorem resolveLoop_stall_ne {u : List (String × DefSchema)}
    {r : List (String × PyType)} {left : List (String × DefSchema)}
    {res2 : List (String × PyType)} (hne : u ≠ [])
    (hp : resolvePassGo u [] r = (left, res2, none))
    (hlen : u.length = left.length) :
    resolveLoop u r =
      (.error (.valueError "Cannot resolve all references"), left) := by
  cases u with
  | nil => exact absurd rfl hne
  | cons u1 urest => exact resolveLoop_stall_eq hp hlen

theorem full_selfRefDoc :
    jsonSchemaToModelFull selfRefDoc =
      (.error (.valueError "Cannot resolve all references"),
       selfRefDoc.defs) := by
  have hp : resolvePassGo selfRefDoc.defs [] [] =
      (selfRefDoc.defs, [], none) := rfl
  have hloop := resolveLoop_stall_ne (by simp [selfRefDoc]) hp rfl
  have hstep : jsonSchemaToModelFull selfRefDoc =
      (match resolveLoop selfRefDoc.defs [] with
       | (.error e, left) => (.error e, left)
       | (.ok resolved, left) =>
         (propertyToModel selfRefDoc.title? selfRefDoc.properties? resolved,
          left)) := rfl
  rw [hstep, hloop]

theorem full_outOfOrderDoc :
    jsonSchemaToModelFull outOfOrderDoc = (.ok modelMyModel, []) := by
  have hp1 : resolvePassGo outOfOrderDoc.defs [] [] =
      ([("A", { title? := some "A",
                properties? := some [("b", tdRef "#/$defs/B")] })],
       [("#/$defs/B", modelB)], none) := rfl
  have h1 : resolveLoop outOfOrderDoc.defs [] =
      resolveLoop
        [("A", { title? := some "A",
                 properties? := some [("b", tdRef "#/$defs/B")] })]
        [("#/$defs/B", modelB)] := resolveLoop_step_eq hp1 (by decide)
  have hp2 : resolvePassGo
      [("A", { title? := some "A",
               properties? := some [("b", tdRef "#/$defs/B")] })] []
      [("#/$defs/B", modelB)] =
      ([], [("#/$defs/B", modelB), ("#/$defs/A", modelA)], none) := rfl
  have h2 := resolveLoop_step_eq hp2 (by decide)
  have hstep : jsonSchemaToModelFull outOfOrderDoc =
      (match resolveLoop outOfOrderDoc.defs [] with
       | (.error e, left) => (.error e, left)
       | (.ok resolved, left) =>
         (propertyToModel outOfOrderDoc.title? outOfOrderDoc.properties?
            resolved, left)) := rfl
  rw [hstep, h1, h2, resolveLoop_nil]
  rfl

theorem full_arrayForwardRefDoc :
    jsonSchemaToModelFull arrayForwardRefDoc =
      (.error (.valueError "Cannot convert to Python type"),
       arrayForwardRefDoc.defs) := by
  have hp : resolvePassGo arrayForwardRefDoc.defs [] [] =
      (arrayForwardRefDoc.defs, [],
       some (.valueError "Cannot convert to Python type")) := rfl
  have hloop : resolveLoop arrayForwardRefDoc.defs [] =
      (.error (.valueError "Cannot convert to Python type"),
       arrayForwardRefDoc.defs) := resolveLoop_error_eq hp
  have hstep : jsonSchemaToModelFull arrayForwardRefDoc =
      (match resolveLoop arrayForwardRefDoc.defs [] with
       | (.error e, left) => (.error e, left)
       | (.ok resolved, left) =>
         (propertyToModel arrayForwardRefDoc.title?
            arrayForwardRefDoc.properties? resolved, left)) := rfl
  rw [hstep, hloop]

/-- C2: the fixed-point loop of `json_schema_to_model` terminates on every
document: whenever a full pass over the unresolved `$defs` entries resolves
zero new entries and aborts with no other exception, the function raises the
unresolvable-reference error immediately instead of retrying; in particular
the document whose sole `$defs` entry references itself fails with that
error, while the out-of-declaration-order document resolves successfully.
(Termination on every input is witnessed by `resolveLoop` being a total
function of this development.) -/
theorem c2_fixed_point_termination :
    (∀ js : SchemaDoc, js.defs ≠ [] → js.properties?.isSome →
      resolvePassGo js.defs [] [] = (js.defs, [], none) →
      jsonSchemaToModel js =
        .error (.valueError "Cannot resolve all references")) ∧
    jsonSchemaToModel selfRefDoc =
      .error (.valueError "Cannot resolve all references") ∧
    jsonSchemaToModel outOfOrderDoc = .ok modelMyModel := by
  refine ⟨?_, ?_, ?_⟩
  · intro js hne hprops hp
    obtain ⟨ps, hps⟩ := Option.isSome_iff_exists.mp hprops
    have hloop := resolveLoop_stall_ne hne hp rfl
    unfold jsonSchemaToModel jsonSchemaToModelFull
    rw [hps]
    simp [hloop]
  · show (jsonSchemaToModelFull selfRefDoc).1 = _
    rw [full_selfRefDoc]
  · show (jsonSchemaToModelFull outOfOrderDoc).1 = _
    rw [full_outOfOrderDoc]

/-- Witness for C2: the general no-progress clause applied to the
self-referential document. -/
theorem c2_fixed_point_termination_witness :
    selfRefDoc.defs ≠ [] ∧ selfRefDoc.properties?.isSome ∧
    resolvePassGo selfRefDoc.defs [] [] = (selfRefDoc.defs, [], none) ∧
    jsonSchemaToModel selfRefDoc =
      .error (.valueError "Cannot resolve all references") :=
  ⟨by simp [selfRefDoc], rfl, rfl,
   c2_fixed_point_termination.1 selfRefDoc (by simp [selfRefDoc]) rfl rfl⟩

/-- C9: in the fixed-point loop only a KeyError defers a `$defs` entry to a
later pass: an unresolved `$ref` inside array `items` raises ValueError from
the type-mapping step (which the loop does not catch), so the whole
reconstruction aborts immediately even though a later pass would have
resolved the reference; the same document with a direct `$ref` (which raises
KeyError when unresolved) reconstructs successfully. -/
theorem c9_array_ref_value_error :
    (∀ (r : String) (defs : List (String × PyType)), defs.lookup r = none →
      jsonSchemaTypeToPythonType (tdArrayRef r) defs =
        .error (.valueError "Cannot convert to Python type") ∧
      jsonSchemaTypeToPythonType (tdRef r) defs = .error (.keyError r)) ∧
    jsonSchemaToModel arrayForwardRefDoc =
      .error (.valueError "Cannot convert to Python type") ∧
    jsonSchemaToModel outOfOrderDoc = .ok modelMyModel := by
  refine ⟨?_, ?_, ?_⟩
  · intro r defs h
    constructor
    · simp [jsonSchemaTypeToPythonType, tdArrayRef, primitiveMap?, h]
    · simp [jsonSchemaTypeToPythonType, tdRef, h]
  · show (jsonSchemaToModelFull arrayForwardRefDoc).1 = _
    rw [full_arrayForwardRefDoc]
  · show (jsonSchemaToModelFull outOfOrderDoc).1 = _
    rw [full_outOfOrderDoc]

/-- Witness for C9: the lookup clause at the reference "#/$defs/B" in the
empty resolved map. -/
theorem c9_array_ref_value_error_witness :
    jsonSchemaTypeToPythonType (tdArrayRef "#/$defs/B") [] =
      .error (.valueError "Cannot convert to Python type") ∧
    jsonSchemaTypeToPythonType (tdRef "#/$defs/B") [] =
      .error (.keyError "#/$defs/B") :=
  c9_array_ref_value_error.1 "#/$defs/B" [] rfl

theorem lookup_append_some {β : Type} {l1 l2 : List (String × β)} {k : String}
    {v : β} (h : l1.lookup k = some v) : (l1 ++ l2).lookup k = some v := by
  induction l1 with
  | nil => simp [List.lookup] at h
  | cons a t ih =>
    obtain ⟨ka, va⟩ := a
    simp only [List.lookup, List.cons_append] at h ⊢
    cases hk : k == ka with
    | true => rw [hk] at h; simpa [hk] using h
    | false => rw [hk] at h; simpa [hk] using ih h

theorem lookup_append_none {β : Type} {l1 l2 : List (String × β)} {k : String}
    (h : l1.lookup k = none) : (l1 ++ l2).lookup k = l2.lookup k := by
  induction l1 with
  | nil => simp
  | cons a t ih =>
    obtain ⟨ka, va⟩ := a
    simp only [List.lookup, List.cons_append] at h ⊢
    cases hk : k == ka with
    | true => rw [hk] at h; simp at h
    | false => rw [hk] at h; simpa [hk] using ih h
theorem resolvePassGo_filter :
    ∀ (l kept : List (String × DefSchema)) (res : List (String × PyType)),
      (((kept ++ l).map fun e => "#/$defs/" ++ e.1).Nodup) →
      (∀ e ∈ kept ++ l, res.lookup ("#/$defs/" ++ e.1) = none) →
      res <+: (resolvePassGo l kept res).2.1 ∧
      (resolvePassGo l kept res).1 =
        (kept ++ l).filter
          (fun e =>
            (((resolvePassGo l kept res).2.1).lookup ("#/$defs/" ++ e.1)).isNone) := by
  intro l
  induction l with
  | nil =>
    intro kept res hnd hdisj
    simp only [resolvePassGo, List.append_nil] at hdisj ⊢
    refine ⟨List.prefix_refl res, ?_⟩
    rw [List.filter_eq_self.mpr]
    intro e he
    simp [hdisj e he]
  | cons hd tl ih =>
    intro kept res hnd hdisj
    obtain ⟨k, d⟩ := hd
    simp only [resolvePassGo]
    cases hres : propertyToModel d.title? d.properties? res with
    | ok m =>
      -- the entry resolves: it is popped and recorded under its ref key
      have hmid :
          ((kept ++ (k, d) :: tl).map fun e => "#/$defs/" ++ e.1) =
            (kept.map fun e => "#/$defs/" ++ e.1) ++
              ("#/$defs/" ++ k) :: (tl.map fun e => "#/$defs/" ++ e.1) := by
        simp
      rw [hmid] at hnd
      have hmidn := List.nodup_middle.mp hnd
      have hnm := (List.nodup_cons.mp hmidn).1
      have hnd2 := (List.nodup_cons.mp hmidn).2
      have hnd2' : ((kept ++ tl).map fun e => "#/$defs/" ++ e.1).Nodup := by
        simpa using hnd2
      have hkd : res.lookup ("#/$defs/" ++ k) = none :=
        hdisj (k, d) (by simp)
      have hdisj2 : ∀ e ∈ kept ++ tl,
          (res ++ [("#/$defs/" ++ k, m)]).lookup ("#/$defs/" ++ e.1) = none := by
        intro e he
        have hne : ("#/$defs/" ++ e.1) ≠ ("#/$defs/" ++ k) := by
          intro hcontra
          exact hnm (by
            rw [← hcontra] at *
            have : ("#/$defs/" ++ e.1) ∈
                ((kept ++ tl).map fun e => "#/$defs/" ++ e.1) :=
              List.mem_map_of_mem _ he
            simpa using this)
        rw [lookup_append_none (hdisj e (by
          rcases List.mem_append.mp he with h | h
          · exact List.mem_append.mpr (Or.inl h)
          · exact List.mem_append.mpr (Or.inr (List.mem_cons_of_mem _ h))))]
        have hb : ("#/$defs/" ++ e.1 == "#/$defs/" ++ k) = false :=
          beq_eq_false_iff_ne.mpr hne
        simp [List.lookup, hb]
      obtain ⟨hpre, hfil⟩ := ih kept (res ++ [("#/$defs/" ++ k, m)]) hnd2' hdisj2
      refine ⟨(List.prefix_append res [("#/$defs/" ++ k, m)]).trans hpre, ?_⟩
      rw [hfil]
      -- the popped entry is filtered out on the right because its key is resolved
      have hlk : ((resolvePassGo tl kept
          (res ++ [("#/$defs/" ++ k, m)])).2.1.lookup ("#/$defs/" ++ k)) = some m := by
        obtain ⟨t, ht⟩ := hpre
        rw [← ht]
        have h1 : (res ++ [("#/$defs/" ++ k, m)]).lookup ("#/$defs/" ++ k) = some m := by
          rw [lookup_append_none hkd]
          simp [List.lookup]
        exact lookup_append_some h1
      rw [List.filter_append, List.filter_append, List.filter_cons_of_neg]
      simp [hlk]
    | error e =>
      cases e with
      | keyError s =>
        -- deferred: the entry moves to the kept accumulator
        have hperm : (kept ++ [(k, d)]) ++ tl = kept ++ (k, d) :: tl := by
          simp
        obtain ⟨hpre, hfil⟩ := ih (kept ++ [(k, d)]) res (by rw [hperm]; exact hnd)
          (by rw [hperm]; exact hdisj)
        refine ⟨hpre, ?_⟩
        rw [hfil, hperm]
      | valueError m =>
        -- uncaught error: nothing more is popped
        refine ⟨List.prefix_refl res, ?_⟩
        rw [List.filter_eq_self.mpr]
        intro e he
        simp [hdisj e he]
/-- The fixed-point loop again, with the resolved-reference map also returned
on the error exits: the same recursion as resolveLoop, instrumented so the
popped/retained dichotomy can be stated. -/
def resolveLoopFull (unresolved : List (String × DefSchema))
    (resolved : List (String × PyType)) :
    Except PyErr (List (String × PyType)) × List (String × DefSchema) ×
      List (String × PyType) :=
  match unresolved with
  | [] => (.ok resolved, [], resolved)
  | u1 :: urest =>
    match hp : resolvePassGo (u1 :: urest) [] resolved with
    | (left, res2, some e) => (.error e, left, res2)
    | (left, res2, none) =>
      if hlen : (u1 :: urest).length = left.length then
        (.error (.valueError "Cannot resolve all references"), left, res2)
      else resolveLoopFull left res2
termination_by unresolved.length
decreasing_by
  have hle := resolvePassGo_fst_length (u1 :: urest) [] resolved
  rw [hp] at hle
  simp only [List.length_nil, List.length_cons] at hle hlen ⊢
  omega

theorem resolveLoopFull_nil (r : List (String × PyType)) :
    resolveLoopFull [] r = (.ok r, [], r) := by
  rw [resolveLoopFull.eq_def]

theorem resolveLoopFull_error_eq {u1 : String × DefSchema}
    {urest : List (String × DefSchema)} {r : List (String × PyType)}
    {left : List (String × DefSchema)} {res2 : List (String × PyType)}
    {e : PyErr}
    (hp : resolvePassGo (u1 :: urest) [] r = (left, res2, some e)) :
    resolveLoopFull (u1 :: urest) r = (.error e, left, res2) := by
  rw [resolveLoopFull.eq_def]
  split
  next heq => simp at heq
  next left2 res3 heq =>
    injection heq with h1 h2
    subst h1; subst h2
    split
    next l3 r3 e3 heq2 =>
      rw [hp] at heq2
      simp only [Prod.mk.injEq, Option.some.injEq] at heq2
      obtain ⟨h1, h2, h3⟩ := heq2
      subst h1; subst h2; subst h3
      rfl
    next l3 r3 heq2 =>
      rw [hp] at heq2
      simp at heq2

theorem resolveLoopFull_stall_eq {u1 : String × DefSchema}
    {urest : List (String × DefSchema)} {r : List (String × PyType)}
    {left : List (String × DefSchema)} {res2 : List (String × PyType)}
    (hp : resolvePassGo (u1 :: urest) [] r = (left, res2, none))
    (hlen : (u1 :: urest).length = left.length) :
    resolveLoopFull (u1 :: urest) r =
      (.error (.valueError "Cannot resolve all references"), left, res2) := by
  rw [resolveLoopFull.eq_def]
  split
  next heq => simp at heq
  next left2 res3 heq =>
    injection heq with h1 h2
    subst h1; subst h2
    split
    next l3 r3 e3 heq2 =>
      rw [hp] at heq2
      simp at heq2
    next l3 r3 heq2 =>
      rw [hp] at heq2
      simp only [Prod.mk.injEq] at heq2
      obtain ⟨h1, h2, h3⟩ := heq2
      subst h1; subst h2
      rw [dif_pos hlen]

theorem resolveLoopFull_step_eq {u1 : String × DefSchema}
    {urest : List (String × DefSchema)} {r : List (String × PyType)}
    {left : List (String × DefSchema)} {res2 : List (String × PyType)}
    (hp : resolvePassGo (u1 :: urest) [] r = (left, res2, none))
    (hlen : ¬(u1 :: urest).length = left.length) :
    resolveLoopFull (u1 :: urest) r = resolveLoopFull left res2 := by
  rw [resolveLoopFull.eq_def]
  split
  next heq => simp at heq
  next left2 res3 heq =>
    injection heq with h1 h2
    subst h1; subst h2
    split
    next l3 r3 e3 heq2 =>
      rw [hp] at heq2
      simp at heq2
    next l3 r3 heq2 =>
      rw [hp] at heq2
      simp only [Prod.mk.injEq] at heq2
      obtain ⟨h1, h2, h3⟩ := heq2
      subst h1; subst h2
      rw [dif_neg hlen]

theorem resolveLoop_eq_full (u : List (String × DefSchema))
    (r : List (String × PyType)) :
    resolveLoop u r = ((resolveLoopFull u r).1, (resolveLoopFull u r).2.1) := by
  induction u, r using resolveLoopFull.induct with
  | case1 r => rw [resolveLoop.eq_def, resolveLoopFull_nil]
  | case2 r u1 urest left res2 e hp =>
    rw [resolveLoop_error_eq hp, resolveLoopFull_error_eq hp]
  | case3 r u1 urest left res2 hp hlen =>
    rw [resolveLoop_stall_eq hp hlen, resolveLoopFull_stall_eq hp hlen]
  | case4 r u1 urest left res2 hp hlen ih =>
    rw [resolveLoop_step_eq hp hlen, resolveLoopFull_step_eq hp hlen, ih]
theorem resolveLoopFull_filter (u : List (String × DefSchema))
    (r : List (String × PyType)) :
    ((u.map fun e => "#/$defs/" ++ e.1)).Nodup →
    (∀ e ∈ u, r.lookup ("#/$defs/" ++ e.1) = none) →
    r <+: (resolveLoopFull u r).2.2 ∧
    (resolveLoopFull u r).2.1 =
      u.filter
        (fun e =>
          (((resolveLoopFull u r).2.2).lookup ("#/$defs/" ++ e.1)).isNone) := by
  induction u, r using resolveLoopFull.induct with
  | case1 r =>
    intro hnd hdisj
    rw [resolveLoopFull_nil]
    exact ⟨List.prefix_refl r, rfl⟩
  | case2 r u1 urest left res2 e hp =>
    intro hnd hdisj
    have h := resolvePassGo_filter (u1 :: urest) [] r (by simpa using hnd)
      (by simpa using hdisj)
    rw [hp] at h
    rw [resolveLoopFull_error_eq hp]
    simpa using h
  | case3 r u1 urest left res2 hp hlen =>
    intro hnd hdisj
    have h := resolvePassGo_filter (u1 :: urest) [] r (by simpa using hnd)
      (by simpa using hdisj)
    rw [hp] at h
    rw [resolveLoopFull_stall_eq hp hlen]
    simpa using h
  | case4 r u1 urest left res2 hp hlen ih =>
    intro hnd hdisj
    have h := resolvePassGo_filter (u1 :: urest) [] r (by simpa using hnd)
      (by simpa using hdisj)
    rw [hp] at h
    simp only [List.nil_append] at h
    obtain ⟨hpre2, hfil2⟩ := h
    rw [resolveLoopFull_step_eq hp hlen]
    have hsub : left.Sublist (u1 :: urest) := by
      have hs := resolvePassGo_fst_sublist (u1 :: urest) [] r
      rw [hp] at hs
      simpa using hs
    have hndL : (left.map fun e => "#/$defs/" ++ e.1).Nodup :=
      List.Nodup.sublist (hsub.map _) hnd
    have hdisjL : ∀ e ∈ left, res2.lookup ("#/$defs/" ++ e.1) = none := by
      intro e he
      have hmem : e ∈ (u1 :: urest).filter
          (fun e => ((res2.lookup ("#/$defs/" ++ e.1))).isNone) := hfil2 ▸ he
      exact Option.isNone_iff_eq_none.mp (List.mem_filter.mp hmem).2
    obtain ⟨hpreF, hfilF⟩ := ih hndL hdisjL
    refine ⟨hpre2.trans hpreF, ?_⟩
    set resF := (resolveLoopFull left res2).2.2 with hresF
    rw [hfilF, hfil2, List.filter_filter]
    apply List.filter_congr
    intro e he
    cases h2 : (res2.lookup ("#/$defs/" ++ e.1)) with
    | none => simp [h2]
    | some v =>
      obtain ⟨t, ht⟩ := hpreF
      have hF : resF.lookup ("#/$defs/" ++ e.1) = some v := by
        rw [← ht]
        exact lookup_append_some h2
      simp [h2, hF]

/-- The state-exposing variant of `json_schema_to_model` built on
`resolveLoopFull`: the outcome, the final state of the caller's `$defs`
dictionary, and the final resolved-reference map. -/
def jsonSchemaToModelState (js : SchemaDoc) :
    Except PyErr PyType × List (String × DefSchema) × List (String × PyType) :=
  match js.properties? with
  | none =>
    (.error (.valueError "properties key is not found in json_schema"),
     js.defs, [])
  | some _ =>
    match resolveLoopFull js.defs [] with
    | (.error e, left, res) => (.error e, left, res)
    | (.ok resolved, left, res) =>
      (propertyToModel js.title? js.properties? resolved, left, res)

/-- The references resolved (and therefore popped from the caller's `$defs`)
over the whole call, successful or not. -/
def finalResolvedRefs (js : SchemaDoc) : List (String × PyType) :=
  (jsonSchemaToModelState js).2.2

theorem jsonSchemaToModelFull_eq_state (js : SchemaDoc) :
    jsonSchemaToModelFull js =
      ((jsonSchemaToModelState js).1, (jsonSchemaToModelState js).2.1) := by
  unfold jsonSchemaToModelFull jsonSchemaToModelState
  cases hps : js.properties? with
  | none => rfl
  | some ps =>
    rw [resolveLoop_eq_full]
    cases hfull : resolveLoopFull js.defs [] with
    | mk fst rest =>
      obtain ⟨l2, r2⟩ := rest
      cases fst <;> rfl

theorem jsonSchemaToModel_leftover_filter (js : SchemaDoc)
    (hnd : ((js.defs.map fun e => "#/$defs/" ++ e.1)).Nodup) :
    (jsonSchemaToModelFull js).2 =
      js.defs.filter
        (fun e => ((finalResolvedRefs js).lookup ("#/$defs/" ++ e.1)).isNone) := by
  obtain ⟨hpre, hfil⟩ :=
    resolveLoopFull_filter js.defs [] hnd (fun e _ => rfl)
  rw [jsonSchemaToModelFull_eq_state]
  show (jsonSchemaToModelState js).2.1 =
    js.defs.filter
      (fun e =>
        (((jsonSchemaToModelState js).2.2).lookup ("#/$defs/" ++ e.1)).isNone)
  unfold jsonSchemaToModelState
  cases hps : js.properties? with
  | none =>
    rw [List.filter_eq_self.mpr]
    intro e _
    rfl
  | some ps =>
    cases hfull : resolveLoopFull js.defs [] with
    | mk fst rest =>
      obtain ⟨l2, r2⟩ := rest
      rw [hfull] at hfil
      cases fst with
      | error e => exact hfil
      | ok resolved => exact hfil

/-- The self-referential entry of `partialStallDoc`. -/
def stallEntryA : String × DefSchema :=
  ("A", { title? := some "A", properties? := some [("a", tdRef "#/$defs/A")] })

/-- A document whose first `$defs` entry resolves on the first pass and whose
second references itself: the call fails after a partial resolution. -/
def partialStallDoc : SchemaDoc where
  title? := some "MyModel"
  properties? := some [("x", tdRef "#/$defs/B")]
  defs :=
    [("B", { title? := some "B", properties? := some [("n", tdPrim "integer")] }),
     stallEntryA]

/-- The entry of `partialAbortDoc` whose array items reference a missing
definition. -/
def abortEntryA : String × DefSchema :=
  ("A", { title? := some "A",
          properties? := some [("bs", tdArrayRef "#/$defs/C")] })

/-- A document whose first `$defs` entry resolves and whose second then
raises the uncaught ValueError: the call aborts after a partial resolution. -/
def partialAbortDoc : SchemaDoc where
  title? := some "MyModel"
  properties? := some [("x", tdRef "#/$defs/B")]
  defs :=
    [("B", { title? := some "B", properties? := some [("n", tdPrim "integer")] }),
     abortEntryA]

theorem state_partialStallDoc :
    jsonSchemaToModelState partialStallDoc =
      (.error (.valueError "Cannot resolve all references"), [stallEntryA],
       [("#/$defs/B", modelB)]) := by
  have hp1 : resolvePassGo partialStallDoc.defs [] [] =
      ([stallEntryA], [("#/$defs/B", modelB)], none) := rfl
  have h1 : resolveLoopFull partialStallDoc.defs [] =
      resolveLoopFull [stallEntryA] [("#/$defs/B", modelB)] :=
    resolveLoopFull_step_eq hp1 (by decide)
  have hp2 : resolvePassGo [stallEntryA] [] [("#/$defs/B", modelB)] =
      ([stallEntryA], [("#/$defs/B", modelB)], none) := rfl
  have h2 := resolveLoopFull_stall_eq hp2 rfl
  have hstep : jsonSchemaToModelState partialStallDoc =
      (match resolveLoopFull partialStallDoc.defs [] with
       | (.error e, left, res) => (.error e, left, res)
       | (.ok resolved, left, res) =>
         (propertyToModel partialStallDoc.title? partialStallDoc.properties?
            resolved, left, res)) := rfl
  rw [hstep, h1, h2]

theorem state_partialAbortDoc :
    jsonSchemaToModelState partialAbortDoc =
      (.error (.valueError "Cannot convert to Python type"), [abortEntryA],
       [("#/$defs/B", modelB)]) := by
  have hp1 : resolvePassGo partialAbortDoc.defs [] [] =
      ([abortEntryA], [("#/$defs/B", modelB)],
       some (.valueError "Cannot convert to Python type")) := rfl
  have h1 : resolveLoopFull partialAbortDoc.defs [] =
      (.error (.valueError "Cannot convert to Python type"), [abortEntryA],
       [("#/$defs/B", modelB)]) := resolveLoopFull_error_eq hp1
  have hstep : jsonSchemaToModelState partialAbortDoc =
      (match resolveLoopFull partialAbortDoc.defs [] with
       | (.error e, left, res) => (.error e, left, res)
       | (.ok resolved, left, res) =>
         (propertyToModel partialAbortDoc.title? partialAbortDoc.properties?
            resolved, left, res)) := rfl
  rw [hstep, h1]

/-- C10: `json_schema_to_model` mutates its input document's `$defs`
dictionary by popping every entry it resolves and touching nothing else:
after a successful call the final `$defs` state is empty; the final state is
always a sublist of the original entries (order preserved, nothing added);
and, for every document with distinct definition keys, the final state is
exactly the original entries whose reference was never resolved — whether
the call succeeds or fails, and in particular after failures that follow a
partial resolution, as the two partial documents exhibit concretely. -/
theorem c10_defs_mutation :
    (∀ (js : SchemaDoc) (m : PyType), jsonSchemaToModel js = .ok m →
      (jsonSchemaToModelFull js).2 = []) ∧
    (∀ js : SchemaDoc, (jsonSchemaToModelFull js).2.Sublist js.defs) ∧
    (∀ js : SchemaDoc,
      ((js.defs.map fun e => "#/$defs/" ++ e.1)).Nodup →
      (jsonSchemaToModelFull js).2 =
        js.defs.filter
          (fun e =>
            ((finalResolvedRefs js).lookup ("#/$defs/" ++ e.1)).isNone)) ∧
    (jsonSchemaToModelFull partialStallDoc).2 = [stallEntryA] ∧
    finalResolvedRefs partialStallDoc = [("#/$defs/B", modelB)] ∧
    (jsonSchemaToModelFull partialAbortDoc).2 = [abortEntryA] ∧
    finalResolvedRefs partialAbortDoc = [("#/$defs/B", modelB)] ∧
    (jsonSchemaToModelFull selfRefDoc).2 = selfRefDoc.defs ∧
    (jsonSchemaToModelFull arrayForwardRefDoc).2 = arrayForwardRefDoc.defs ∧
    (jsonSchemaToModelFull outOfOrderDoc).2 = [] := by
  refine ⟨?_, ?_, ?_, ?_, ?_, ?_, ?_, ?_, ?_, ?_⟩
  · intro js m h
    unfold jsonSchemaToModel at h
    unfold jsonSchemaToModelFull at h ⊢
    cases hps : js.properties? with
    | none => rw [hps] at h; simp at h
    | some ps =>
      rw [hps] at h
      cases hloop : resolveLoop js.defs [] with
      | mk fst snd =>
        rw [hloop] at h
        cases fst with
        | error e => simp at h
        | ok resolved =>
          have h1 : (resolveLoop js.defs []).1 = .ok resolved := by
            rw [hloop]
          have h2 := resolveLoop_ok_empty js.defs [] resolved h1
          rw [hloop] at h2
          simpa using h2
  · intro js
    unfold jsonSchemaToModelFull
    cases hps : js.properties? with
    | none => exact List.Sublist.refl _
    | some ps =>
      have hs := resolveLoop_snd_sublist js.defs []
      cases hloop : resolveLoop js.defs [] with
      | mk fst snd =>
        rw [hloop] at hs
        cases fst with
        | error e => simpa using hs
        | ok resolved => simpa using hs
  · exact jsonSchemaToModel_leftover_filter
  · rw [jsonSchemaToModelFull_eq_state, state_partialStallDoc]
  · show (jsonSchemaToModelState partialStallDoc).2.2 = _
    rw [state_partialStallDoc]
  · rw [jsonSchemaToModelFull_eq_state, state_partialAbortDoc]
  · show (jsonSchemaToModelState partialAbortDoc).2.2 = _
    rw [state_partialAbortDoc]
  · rw [full_selfRefDoc]
  · rw [full_arrayForwardRefDoc]
  · rw [full_outOfOrderDoc]

/-- Witness for C10: the success clause applied to the out-of-order document
and the general exactness clause applied to the partially-resolving stalling
document. -/
theorem c10_defs_mutation_witness :
    jsonSchemaToModel outOfOrderDoc = .ok modelMyModel ∧
    (jsonSchemaToModelFull outOfOrderDoc).2 = [] ∧
    ((partialStallDoc.defs.map fun e => "#/$defs/" ++ e.1)).Nodup ∧
    (jsonSchemaToModelFull partialStallDoc).2 =
      partialStallDoc.defs.filter
        (fun e =>
          ((finalResolvedRefs partialStallDoc).lookup
            ("#/$defs/" ++ e.1)).isNone) :=
  ⟨by show (jsonSchemaToModelFull outOfOrderDoc).1 = _
      rw [full_outOfOrderDoc],
   c10_defs_mutation.1 outOfOrderDoc modelMyModel
     (by show (jsonSchemaToModelFull outOfOrderDoc).1 = _
         rw [full_outOfOrderDoc]),
   by decide,
   c10_defs_mutation.2.2.1 partialStallDoc (by decide)⟩

end Oltl
